import Mathlib

/-!
Shallow embedding of the candidate-evaluation and trusted-origin logic of the
`unearth` package discovery library (files `src/unearth/evaluator.py` and
`src/unearth/session.py`), together with theorems settling the frozen claims
about it.

Python strings are modelled as Lean `String`, Python `None`-able values as
`Option`, Python exceptions as the `Except.error` constructor, and Python
dictionaries as association lists.  Helper code of the repository that is not
part of the two source files (the `Link` value type, `strip_extras`,
`parse_netloc`, the tag computation of `pep425tags`) and the third-party
`packaging` / `ipaddress` libraries are modelled from the specification, as
marked in the individual doc comments.
-/

namespace Unearth

/-! ## Name canonicalization (packaging.utils.canonicalize_name) -/

/-- True for the characters collapsed by PEP 503 name normalization. -/
def isNameSep (c : Char) : Bool :=
  c = '-' || c = '_' || c = '.'

/-- Core loop of `canonicalize_name`: every maximal run of `-`, `_`, `.`
becomes a single `-` (emitted at the start of the run, tracked by the
`prevSep` flag), and all other characters are lower-cased. -/
def canonChars : List Char → Bool → List Char
  | [], _ => []
  | c :: rest, prevSep =>
    if isNameSep c then
      (if prevSep then [] else ['-']) ++ canonChars rest true
    else
      c.toLower :: canonChars rest false

/-- Models `packaging.utils.canonicalize_name` (PEP 503):
`re.sub(r"[-_.]+", "-", name).lower()`. -/
def canonicalize_name (s : String) : String :=
  String.mk (canonChars s.data false)

/-! ## Structural character-list forms of the Python string primitives

The model manipulates strings through these structurally recursive list
functions, so that every definition evaluates on concrete inputs by plain
kernel reduction. -/

/-- Whether `p` is a prefix of `cs` (`str.startswith`). -/
def startsWithChars : List Char → List Char → Bool
  | [], _ => true
  | _ :: _, [] => false
  | p :: ps, c :: cs => p = c && startsWithChars ps cs

/-- Whether `p` is a suffix of `cs` (`str.endswith`). -/
def endsWithChars (p cs : List Char) : Bool :=
  startsWithChars p.reverse cs.reverse

/-- Fuel-driven worker for `splitChars`; the fuel dominates the input
length, so the `0` fallback is never taken. -/
def splitOnSubAux (sep : List Char) : Nat → List Char → List (List Char)
  | _, [] => [[]]
  | 0, cs => [cs]
  | fuel + 1, c :: rest =>
      if startsWithChars sep (c :: rest) ∧ sep ≠ [] then
        [] :: splitOnSubAux sep fuel (List.drop (sep.length - 1) rest)
      else
        match splitOnSubAux sep fuel rest with
        | g :: gs => (c :: g) :: gs
        | [] => [[c]]

/-- Python `str.split(sep)` for a non-empty separator (leftmost,
non-overlapping occurrences; splitting the empty string yields `[[]]`). -/
def splitChars (sep cs : List Char) : List (List Char) :=
  splitOnSubAux sep cs.length cs

/-- Python `str.strip()`. -/
def trimChars (cs : List Char) : List Char :=
  ((cs.dropWhile Char.isWhitespace).reverse.dropWhile Char.isWhitespace).reverse

/-- Decimal digit-string value: `some` exactly on non-empty all-digit input
(Python `int(s)`, leading zeros allowed). -/
def digitsToNatAux : List Char → Nat → Option Nat
  | [], acc => some acc
  | c :: rest, acc =>
      if c.isDigit then digitsToNatAux rest (acc * 10 + (c.toNat - 48)) else none

/-- See `digitsToNatAux`; the empty string is not a number. -/
def digitsToNat : List Char → Option Nat
  | [] => none
  | cs => digitsToNatAux cs 0

/-- Fuel-driven decimal rendering of a natural number. -/
def natDigitsAux : Nat → Nat → List Char
  | 0, _ => []
  | fuel + 1, n =>
      if n < 10 then [Char.ofNat (48 + n)]
      else natDigitsAux fuel (n / 10) ++ [Char.ofNat (48 + n % 10)]

/-- Decimal digits of `n` (Python `str(n)`). -/
def natDigits (n : Nat) : List Char :=
  natDigitsAux (n + 1) n

/-- `".".join(str(v) for v in vs)`. -/
def joinDots : List Nat → List Char
  | [] => []
  | [n] => natDigits n
  | n :: m :: rest => natDigits n ++ '.' :: joinDots (m :: rest)

/-! ## Version inference from egg-info strings (evaluator.py lines 30-34) -/

/-- Loop of `parse_version_from_egg_info`: mirrors
`for i, c in enumerate(egg_info)` returning `egg_info[i + 1:]` at the first
index where the prefix canonicalizes to the requested name and the current
character is `-` or `_`.  The whole character list is carried in `cs` while
the structural recursion walks its suffix, with `i` the current index. -/
def pvfeGo (cs : List Char) (canonical_name : String) : List Char → Nat → Option String
  | [], _ => none
  | c :: rest, i =>
      if canonicalize_name (String.mk (cs.take i)) = canonical_name ∧
          (c = '-' ∨ c = '_') then
        some (String.mk (cs.drop (i + 1)))
      else
        pvfeGo cs canonical_name rest (i + 1)

/-- Models `parse_version_from_egg_info` of `evaluator.py`. -/
def parse_version_from_egg_info (egg_info canonical_name : String) : Option String :=
  pvfeGo egg_info.data canonical_name egg_info.data 0

/-! ## Spec-side reformulation of the version-inference rule -/

/-- Decides whether index `i` of `cs` is a name/version boundary in the sense
of the spec: the prefix before `i` canonicalizes to the requested name and the
character at `i` is a `-` or `_` separator. -/
def isBoundary (cs : List Char) (canonical_name : String) (i : Nat) : Bool :=
  match cs[i]? with
  | some c =>
      decide (canonicalize_name (String.mk (cs.take i)) = canonical_name) &&
        (c = '-' || c = '_')
  | none => false

/-- The list `[s, s+1, ..., s+n-1]` of candidate indices. -/
def idxList (s : Nat) : Nat → List Nat
  | 0 => []
  | n + 1 => s :: idxList (s + 1) n

/-- Definition that follows the spec's words for the egg-info version rule
(to be compared with `parse_version_from_egg_info`): the version is everything
after the shortest prefix of the egg-info string whose canonicalized form
equals the canonicalized requested name and which is immediately followed by
`-` or `_`; `none` when no such boundary exists. -/
def spec_version_from_egg_info (egg_info canonical_name : String) : Option String :=
  (((idxList 0 egg_info.data.length).filter
      (fun i => isBoundary egg_info.data canonical_name i)).head?).map
    (fun i => String.mk (egg_info.data.drop (i + 1)))

/-! ## Remaining filename helpers -/

/-- Modelled from the spec: `unearth.utils.strip_extras` is not under src/;
the spec says the egg fragment is used "with any extras suffix stripped", so
this drops a bracketed extras suffix (everything from the first `[` on). -/
def strip_extras (s : String) : String :=
  String.mk (s.data.takeWhile (fun c => c != '['))

/-- Index of the last `.` in `cs` (Python `str.rfind`), or `none`. -/
def rfindDot (cs : List Char) : Option Nat :=
  ((idxList 0 cs.length).filter (fun i => cs[i]? == some '.')).getLast?

/-- Models `os.path.splitext(filename)[0]` for a bare filename (no directory
separators): the extension starts at the last dot, unless every character
before that dot is itself a dot. -/
def splitext_root (s : String) : String :=
  match rfindDot s.data with
  | none => s
  | some d =>
      if (s.data.take d).any (fun c => c != '.') then String.mk (s.data.take d)
      else s

/-! ## Version specifiers (third-party packaging.specifiers, modelled) -/

/-- Whether every segment is zero (the padding tail of a release list). -/
def allZero : List Nat → Bool
  | [] => true
  | x :: xs => x == 0 && allZero xs

/-- Ordering of PEP 440 release segment lists with implicit zero padding. -/
def releaseCompare : List Nat → List Nat → Ordering
  | [], ys => if allZero ys then .eq else .lt
  | x :: xs, [] => if allZero (x :: xs) then .eq else .gt
  | x :: xs, y :: ys =>
      if x < y then .lt else if y < x then .gt else releaseCompare xs ys

/-- Parses a dotted all-numeric version string (`"3"`, `"3.7"`, `"3.7.0"`)
into its release segments. -/
def parseReleaseSegs (cs : List Char) : Option (List Nat) :=
  (splitChars ['.'] cs).mapM digitsToNat

inductive SpecOp where
  | eqOp | neOp | leOp | geOp | ltOp | gtOp | compatibleOp | arbitraryOp
deriving DecidableEq

structure Specifier where
  op : SpecOp
  release : List Nat
  wildcard : Bool
  raw : String
deriving DecidableEq

/-- Modelled from the spec: one PEP 440 version specifier (third-party
`packaging.specifiers.Specifier`), restricted to release-only versions: an
operator followed by a dotted numeric version, with a `.*` wildcard allowed
for the equality operators and arbitrary text for `===`. -/
def parseSpecifier (s : String) : Option Specifier :=
  let cs := s.data
  let pick (opStr : List Char) (op : SpecOp) : Option (SpecOp × List Char) :=
    if startsWithChars opStr cs then some (op, trimChars (cs.drop opStr.length))
    else none
  let opv :=
    pick ['=', '=', '='] .arbitraryOp <|> pick ['=', '='] .eqOp <|>
      pick ['!', '='] .neOp <|> pick ['<', '='] .leOp <|> pick ['>', '='] .geOp <|>
      pick ['~', '='] .compatibleOp <|> pick ['<'] .ltOp <|> pick ['>'] .gtOp
  match opv with
  | none => none
  | some (op, ver) =>
    if op = .arbitraryOp then
      if ver ≠ [] then some ⟨op, [], false, String.mk ver⟩ else none
    else
      let wild := endsWithChars ['.', '*'] ver
      let core := if wild then ver.take (ver.length - 2) else ver
      match parseReleaseSegs core with
      | none => none
      | some segs =>
        if wild ∧ ¬(op = .eqOp ∨ op = .neOp) then none
        else if op = .compatibleOp ∧ segs.length < 2 then none
        else some ⟨op, segs, wild, String.mk ver⟩

/-- Modelled from the spec: parsing of a version-specifier set (third-party
`packaging.specifiers.SpecifierSet`): comma-separated specifiers, empty
pieces dropped; `none` models the `InvalidSpecifier` exception. -/
def parseSpecifierSet (s : String) : Option (List Specifier) :=
  (((splitChars [','] s.data).map trimChars).filter (fun p => !p.isEmpty)).mapM
    (fun p => parseSpecifier (String.mk p))

/-- First `k` segments of `t`, zero padded. -/
def truncPad (t : List Nat) (k : Nat) : List Nat :=
  (t ++ List.replicate k 0).take k

/-- Equality test against `segs`, prefix-only when `wild` is set. -/
def wildcardEq (target segs : List Nat) (wild : Bool) : Bool :=
  if wild then releaseCompare (truncPad target segs.length) segs == Ordering.eq
  else releaseCompare target segs == Ordering.eq

/-- Whether the target version satisfies one specifier. -/
def specifierMatches (target : List Nat) (targetStr : String) (sp : Specifier) : Bool :=
  match sp.op with
  | .eqOp => wildcardEq target sp.release sp.wildcard
  | .neOp => ! wildcardEq target sp.release sp.wildcard
  | .leOp => releaseCompare target sp.release != Ordering.gt
  | .geOp => releaseCompare target sp.release != Ordering.lt
  | .ltOp => releaseCompare target sp.release == Ordering.lt
  | .gtOp => releaseCompare target sp.release == Ordering.gt
  | .compatibleOp =>
      (releaseCompare target sp.release != Ordering.lt) &&
        wildcardEq target sp.release.dropLast true
  | .arbitraryOp => targetStr == sp.raw

/-- Models `SpecifierSet.contains`: every member specifier must match. -/
def specSetContains (specs : List Specifier) (target : List Nat)
    (targetStr : String) : Bool :=
  specs.all (specifierMatches target targetStr)

/-! ## Compatibility tags and wheel filenames (third-party packaging, modelled) -/

structure Tag where
  interpreter : String
  abi : String
  platform : String
deriving DecidableEq

/-- Modelled from the spec: third-party `packaging.tags.parse_tag` — a
compound tag string `pytag-abitag-plattag` expands, by cross product of its
dot-separated components, into the set of tags it names (lower-cased). -/
def parse_tag (s : String) : Option (List Tag) :=
  let low (g : List Char) : String := String.mk (g.map Char.toLower)
  match splitChars ['-'] s.data with
  | [i, a, p] =>
      some ((splitChars ['.'] i).flatMap (fun ii =>
        (splitChars ['.'] a).flatMap (fun aa =>
          (splitChars ['.'] p).map (fun pp => Tag.mk (low ii) (low aa) (low pp)))))
  | _ => none

structure WheelInfo where
  name : String
  version : String
  buildTag : Option (Nat × String)
  tags : List Tag
deriving DecidableEq

/-- Characters the wheel-name component may contain (`[\w\d._]`). -/
def isWheelNameChar (c : Char) : Bool :=
  c.isAlphanum || c = '_' || c = '.'

/-- Build-tag component: leading digits, then the rest (`(\d+)(.*)`). -/
def parseBuildTag (b : List Char) : Option (Nat × String) :=
  let ds := b.takeWhile Char.isDigit
  match digitsToNat ds with
  | some n => some (n, String.mk (b.drop ds.length))
  | none => none

/-- Modelled from the spec: third-party `packaging.utils.parse_wheel_filename`
following the spec's wheel filename grammar
`name-version(-build)?-pytag-abitag-plattag.whl`; `none` stands for the
`InvalidWheelFilename` exception.  The name component (which can contain no
dash here) must consist of word/dot characters with no double underscore and
is returned canonicalized; the version component is kept as an opaque
non-empty string, as the spec treats it ("the parsed version component,
stringified"). -/
def parse_wheel_filename (filename : String) : Option WheelInfo :=
  let cs := filename.data
  if ¬ endsWithChars ['.', 'w', 'h', 'l'] cs then none
  else
    let stem := cs.take (cs.length - 4)
    let nameOk (n : List Char) : Bool :=
      ((splitChars ['_', '_'] n).length == 1) && n.all isWheelNameChar
    let tagStr (t1 t2 t3 : List Char) : String :=
      String.mk (t1 ++ '-' :: (t2 ++ '-' :: t3))
    match splitChars ['-'] stem with
    | [n, v, t1, t2, t3] =>
        if nameOk n ∧ v ≠ [] then
          match parse_tag (tagStr t1 t2 t3) with
          | some tags => some ⟨canonicalize_name (String.mk n), String.mk v, none, tags⟩
          | none => none
        else none
    | [n, v, b, t1, t2, t3] =>
        if nameOk n ∧ v ≠ [] then
          match parseBuildTag b, parse_tag (tagStr t1 t2 t3) with
          | some bt, some tags =>
              some ⟨canonicalize_name (String.mk n), String.mk v, some bt, tags⟩
          | _, _ => none
        else none
    | _ => none

/-! ## Links and packages -/

/-- Modelled from the spec: the `unearth.link.Link` value type is not under
src/.  Per the spec a Link's derived fields are pure functions of its URL and
fragment, so the model carries the parsed components the evaluator and the
trusted-origin matcher read: URL scheme/hostname/port, the filename (last
path segment), the recognized fragment fields (the first matching hash
algorithm/digest pair, and `egg`), and the surrounding-context fields
`requires_python` and `yank_reason`. -/
structure Link where
  scheme : String := ""
  hostname : Option String := none
  port : Option Nat := none
  filename : String := ""
  fragment_egg : Option String := none
  hashField : Option (String × String) := none
  requires_python : Option String := none
  yank_reason : Option String := none
deriving DecidableEq

/-- Derived predicate: the filename ends in the wheel archive suffix. -/
def Link.is_wheel (l : Link) : Bool :=
  endsWithChars ['.', 'w', 'h', 'l'] l.filename.data

/-- Models `TargetPython` of `evaluator.py`.  The tag sequence computed by
`unearth.pep425tags.get_supported` is not under src/; the spec treats
`supportedTags()` as a computed priority-ordered sequence of compatibility
tags, so the model carries that resulting sequence directly. -/
structure TargetPython where
  py_ver : Option (List Nat) := none
  supported_tags : List Tag := []
deriving DecidableEq

/-- Models the `Package` dataclass of `evaluator.py`. -/
structure Package where
  name : String
  version : Option String
  link : Link
deriving DecidableEq

/-- Models the `FormatControl` dataclass. -/
structure FormatControl where
  only_binary : Bool := false
  no_binary : Bool := false
deriving DecidableEq

/-- Models `FormatControl.__post_init__`: construction with both flags set
raises `ValueError`, modelled as `Except.error`. -/
def FormatControl.make (only_binary no_binary : Bool) : Except String FormatControl :=
  if only_binary ∧ no_binary then
    .error "Not allowed to set only_binary and no_binary at the same time."
  else
    .ok ⟨only_binary, no_binary⟩

/-- Models `FormatControl.is_allowed` (the project name is only logged). -/
def FormatControl.is_allowed (fc : FormatControl) (link : Link) : Bool :=
  if fc.only_binary then link.is_wheel
  else if fc.no_binary then ! link.is_wheel
  else true

/-! ## The evaluator -/

/-- Truthiness of an optional Python string (`None` and `""` are falsy). -/
def strTruthy : Option String → Bool
  | none => false
  | some s => s != ""

/-- Models the `Evaluator` dataclass of `evaluator.py`. -/
structure Evaluator where
  package_name : String
  target_python : TargetPython := {}
  hashes : List (String × List String) := []
  ignore_compatibility : Bool := false
  allow_yanked : Bool := false
  format_control : FormatControl := {}
deriving DecidableEq

/-- Models the `_canonical_name` attribute set in `Evaluator.__post_init__`. -/
def Evaluator.canonical_name (e : Evaluator) : String :=
  canonicalize_name e.package_name

/-- Models `Evaluator._check_yanked`. -/
def Evaluator.check_yanked (e : Evaluator) (link : Link) : Bool :=
  if link.yank_reason ≠ none ∧ e.allow_yanked = false then false else true

/-- Models `Evaluator._check_requires_python`.  `sys_version` stands for the
ambient `sys.version_info[:2]` of the running interpreter; the `Except.error`
result is the uncaught `InvalidSpecifier` exception raised by
`SpecifierSet(link.requires_python)`. -/
def Evaluator.check_requires_python (e : Evaluator) (sys_version : List Nat)
    (link : Link) : Except String Bool :=
  if e.ignore_compatibility = false ∧ strTruthy link.requires_python then
    let py_ver :=
      match e.target_python.py_ver with
      | some v => if v = [] then sys_version else v
      | none => sys_version
    match parseSpecifierSet (link.requires_python.getD "") with
    | none => .error "InvalidSpecifier"
    | some specs =>
        .ok (specSetContains specs py_ver (String.mk (joinDots py_ver)))
  else
    .ok true

/-- Models `self.hashes.get(link.hash_name, [])`. -/
def hashLookup (hashes : List (String × List String)) (name : String) : List String :=
  match hashes.find? (fun kv => kv.1 == name) with
  | some kv => kv.2
  | none => []

/-- Models `Evaluator._check_hashes`. -/
def Evaluator.check_hashes (e : Evaluator) (link : Link) : Bool :=
  match e.hashes, link.hashField with
  | [], _ => true
  | _, none => true
  | hs, some (name, digest) => (hashLookup hs name).contains digest

/-- Models `frozenset.isdisjoint`: no wheel tag occurs in the supported
sequence. -/
def tagsDisjoint (wheelTags supported : List Tag) : Bool :=
  wheelTags.all (fun t => ! supported.contains t)

/-- Models lines 183-210 of `evaluator.py`: the name/version/tag resolution
step of `evaluate_link`, returning the resolved version, or `none` for each
of the source's graceful rejections there (malformed wheel filename, wheel
name mismatch, disjoint tag sets, missing version in the egg-info string). -/
def Evaluator.resolve_version (e : Evaluator) (link : Link) : Option String :=
  if link.is_wheel then
    match parse_wheel_filename link.filename with
    | none => none
    | some wi =>
      if e.canonical_name ≠ wi.name then none
      else if e.ignore_compatibility = false ∧
          tagsDisjoint wi.tags e.target_python.supported_tags then none
      else some wi.version
  else
    let egg_info :=
      if strTruthy link.fragment_egg then strip_extras (link.fragment_egg.getD "")
      else splitext_root link.filename
    parse_version_from_egg_info egg_info e.canonical_name

/-- Models `Evaluator.evaluate_link`: `Except.error` is an uncaught
exception, `.ok none` a rejected link, `.ok (some p)` an admitted package. -/
def Evaluator.evaluate_link (e : Evaluator) (sys_version : List Nat) (link : Link) :
    Except String (Option Package) :=
  if e.format_control.is_allowed link = false then .ok none
  else if e.check_yanked link = false then .ok none
  else
    match e.check_requires_python sys_version link with
    | .error m => .error m
    | .ok false => .ok none
    | .ok true =>
      match e.resolve_version link with
      | none => .ok none
      | some version =>
        if e.check_hashes link = false then .ok none
        else .ok (some ⟨e.package_name, some version, link⟩)

/-- Models `packaging.requirements.Requirement` as far as `evaluate_package`
reads it: the project name (`""` modelling a falsy/absent name) and the
parsed specifier set. -/
structure Requirement where
  name : String := ""
  specifier : List Specifier := []
deriving DecidableEq

/-- Models the version-string side of `SpecifierSet.contains` as used by
`evaluate_package` (release-only versions; an unparseable version string is
treated as non-matching — no claim exercises that path). -/
def specSetContainsStr (specs : List Specifier) (version : String) : Bool :=
  match parseReleaseSegs version.data with
  | some segs => specSetContains specs segs version
  | none => false

/-- Models `evaluate_package` of `evaluator.py`.  The prerelease flag is
carried for signature fidelity; the release-only version model gives it
nothing to act on. -/
def evaluate_package (package : Package) (requirement : Requirement)
    (_allow_prereleases : Option Bool) : Bool :=
  if requirement.name ≠ "" ∧
      canonicalize_name package.name ≠ canonicalize_name requirement.name then
    false
  else if requirement.specifier ≠ [] ∧ strTruthy package.version then
    specSetContainsStr requirement.specifier (package.version.getD "")
  else
    true

/-! ## IP addresses and networks (Python ipaddress module, modelled) -/

/-- IPv4 or IPv6 address value. -/
inductive IpAddr where
  | v4 (val : Nat)
  | v6 (val : Nat)
deriving DecidableEq

/-- An IP network: address family, network address value, prefix length. -/
structure IpNetwork where
  isV6 : Bool
  value : Nat
  prefixLen : Nat
deriving DecidableEq

/-- Modelled from the spec: one dotted-decimal IPv4 octet as the Python
`ipaddress` module accepts it (1-3 decimal digits, no leading zero, at most
255). -/
def parseOctet (s : List Char) : Option Nat :=
  if s.length = 0 ∨ 3 < s.length then none
  else if s.length ≠ 1 ∧ startsWithChars ['0'] s then none
  else
    match digitsToNat s with
    | some n => if n ≤ 255 then some n else none
    | none => none

/-- Modelled from the spec: dotted-decimal IPv4 parsing. -/
def parseIPv4 (s : List Char) : Option Nat :=
  match splitChars ['.'] s with
  | [a, b, c, d] =>
    match parseOctet a, parseOctet b, parseOctet c, parseOctet d with
    | some x, some y, some z, some w => some (((x * 256 + y) * 256 + z) * 256 + w)
    | _, _, _, _ => none
  | _ => none

/-- Value of one hexadecimal digit. -/
def hexDigitVal (c : Char) : Option Nat :=
  if c.isDigit then some (c.toNat - 48)
  else if 'a' ≤ c ∧ c ≤ 'f' then some (c.toNat - 87)
  else if 'A' ≤ c ∧ c ≤ 'F' then some (c.toNat - 55)
  else none

/-- One IPv6 hextet: 1-4 hexadecimal digits. -/
def parseHexGroup (s : List Char) : Option Nat :=
  if s.length = 0 ∨ 4 < s.length then none
  else (s.mapM hexDigitVal).map (fun ds => ds.foldl (fun acc d => acc * 16 + d) 0)

/-- Folds hextets into the 128-bit address value. -/
def combineGroups (gs : List Nat) : Nat :=
  gs.foldl (fun acc g => acc * 65536 + g) 0

/-- Modelled from the spec: simplified IPv6 textual form — hex groups
separated by `:` with at most one `::` compression; IPv4-mapped and zoned
addresses are outside the model. -/
def parseIPv6 (s : List Char) : Option Nat :=
  if s.contains '.' ∨ s.contains '%' then none
  else
    let groupsOf (t : List Char) : Option (List Nat) :=
      if t = [] then some [] else (splitChars [':'] t).mapM parseHexGroup
    match splitChars [':', ':'] s with
    | [whole] =>
      match groupsOf whole with
      | some gs => if gs.length = 8 then some (combineGroups gs) else none
      | none => none
    | [left, right] =>
      match groupsOf left, groupsOf right with
      | some ls, some rs =>
        if ls.length + rs.length ≤ 7 then
          some (combineGroups
            (ls ++ List.replicate (8 - ls.length - rs.length) 0 ++ rs))
        else none
      | _, _ => none
    | _ => none

/-- Models `ipaddress.ip_address`; `none` is the `ValueError` the caller
catches (also covering the `host is None` case at the call site). -/
def ip_address (s : String) : Option IpAddr :=
  match parseIPv4 s.data with
  | some v => some (.v4 v)
  | none =>
    match parseIPv6 s.data with
    | some v => some (.v6 v)
    | none => none

/-- Models `ipaddress.ip_network` in its default strict mode: an optional
`/prefix` suffix; host bits must be zero. -/
def ip_network (s : String) : Option IpNetwork :=
  let addrNet (a : String) (plen : Option Nat) : Option IpNetwork :=
    match ip_address a with
    | some (.v4 v) =>
      let p := plen.getD 32
      if p ≤ 32 ∧ v % 2 ^ (32 - p) = 0 then some ⟨false, v, p⟩ else none
    | some (.v6 v) =>
      let p := plen.getD 128
      if p ≤ 128 ∧ v % 2 ^ (128 - p) = 0 then some ⟨true, v, p⟩ else none
    | none => none
  match splitChars ['/'] s.data with
  | [a] => addrNet (String.mk a) none
  | [a, pl] =>
    match digitsToNat pl with
    | some p => addrNet (String.mk a) (some p)
    | none => none
  | _ => none

/-- Models Python `addr in network` (`False` across address families,
network-address comparison after masking the host bits within one). -/
def ipInNetwork (a : IpAddr) (n : IpNetwork) : Bool :=
  match a with
  | .v4 v =>
      !n.isV6 && (v / 2 ^ (32 - n.prefixLen) == n.value / 2 ^ (32 - n.prefixLen))
  | .v6 v =>
      n.isV6 && (v / 2 ^ (128 - n.prefixLen) == n.value / 2 ^ (128 - n.prefixLen))

/-! ## The trusted-origin matcher (session.py) -/

/-- One component of a secure-origin table entry or of the candidate origin,
as the Python code compares them: the literal string `"*"`, some other
string, an integer port, or Python `None` (equal to nothing but itself). -/
inductive OPart where
  | star
  | str (s : String)
  | num (n : Nat)
  | pynone
deriving DecidableEq

/-- Models `_compare_origin_part` of `session.py`:
`allowed == "*" or allowed == actual`. -/
def compare_origin_part (allowed actual : OPart) : Bool :=
  decide (allowed = OPart.star) || decide (allowed = actual)

/-- Models `DEFAULT_SECURE_ORIGINS` of `session.py`. -/
def DEFAULT_SECURE_ORIGINS : List (OPart × OPart × OPart) :=
  [ (.str "https", .star, .star),
    (.str "wss", .star, .star),
    (.star, .str "localhost", .star),
    (.star, .str "127.0.0.0/8", .star),
    (.star, .str "::1/128", .star),
    (.str "file", .star, .star) ]

/-- Models the `PyPISession` state the trusted-origin matcher reads: the
accumulated `_trusted_host_ports` pairs (hostname, optional port). -/
structure PyPISession where
  trusted_host_ports : List (String × Option Nat)
deriving DecidableEq

/-- Encodes `port or "*"`: Python's falsy port values (`None` and `0`)
become the wildcard string. -/
def portToOPart : Option Nat → OPart
  | none => .star
  | some p => if p = 0 then .star else .num p

/-- Candidate hostname as the comparison sees it (`None` stays `None`). -/
def hostToOPart : Option String → OPart
  | none => .pynone
  | some h => .str h

/-- Models `PyPISession.iter_secure_origins`: the defaults, then one
`("*", host, port or "*")` entry per trusted host. -/
def PyPISession.iter_secure_origins (s : PyPISession) : List (OPart × OPart × OPart) :=
  DEFAULT_SECURE_ORIGINS ++
    s.trusted_host_ports.map (fun hp => (OPart.star, OPart.str hp.1, portToOPart hp.2))

/-- Host-part test of one loop iteration of `is_secure_origin`: when both
the candidate host and the entry's host pattern parse as IP address/network,
network membership decides; otherwise (the `ValueError` path) literal
comparison with `"*"` wildcard. -/
def hostMatches (secureHost : OPart) (host : Option String) : Bool :=
  let netw : Option IpNetwork :=
    match secureHost with
    | .str hs => ip_network hs
    | _ => none
  match host.bind ip_address, netw with
  | some addr, some net => ipInNetwork addr net
  | _, _ => compare_origin_part secureHost (hostToOPart host)

/-- One loop iteration of `is_secure_origin`: an entry matches when its
scheme, host and port parts all match. -/
def entryMatches (entry : OPart × OPart × OPart) (scheme : String)
    (host : Option String) (port : Option Nat) : Bool :=
  compare_origin_part entry.1 (.str scheme) &&
    hostMatches entry.2.1 host &&
    compare_origin_part entry.2.2 (portToOPart port)

/-- Strips a `+driver` scheme prefix: `scheme.rpartition("+")` keeps the part
after the last `+`. -/
def stripDriver (scheme : String) : String :=
  match (splitChars ['+'] scheme.data).getLast? with
  | some t => String.mk t
  | none => scheme

/-- Models `PyPISession.is_secure_origin`: the first fully matching table
entry wins; no entry matching yields `False` (the warning log on that path is
a side effect outside the model). -/
def PyPISession.is_secure_origin (s : PyPISession) (location : Link) : Bool :=
  s.iter_secure_origins.any (fun entry =>
    entryMatches entry (stripDriver location.scheme) location.hostname location.port)

/-! ## The local filesystem adapter (session.py) -/

/-- Carries `type(exc).__name__` and `str(exc)` of the Python `OSError`
raised by `os.stat`. -/
structure OSErrorInfo where
  className : String
  message : String
deriving DecidableEq

/-- The `os.stat` data the adapter reads (mtime already formatted). -/
structure FileStats where
  st_mtime_formatted : String
  st_size : Nat
deriving DecidableEq

/-- The response fields `LocalFSAdapter.send` sets. -/
structure ModelResponse where
  status_code : Nat
  url : String
  reason : Option String
  body : Option String
  headers : List (String × String)
deriving DecidableEq

/-- Models `LocalFSAdapter.send`.  The filesystem interaction is passed in
explicitly: `statResult` is the outcome of `os.stat` (`Except.error` carrying
the raised `OSError`), `contentTypeGuess` the outcome of
`mimetypes.guess_type(path)[0]`.  On the error path the response carries a
404 status, the error class name as reason and the formatted error text as
body; on success a 200 status with the stat-derived headers (the body is the
opened file object, outside the model). -/
def LocalFSAdapter.send (url : String) (statResult : Except OSErrorInfo FileStats)
    (contentTypeGuess : Option String) : ModelResponse :=
  match statResult with
  | .error exc =>
      { status_code := 404, url := url, reason := some exc.className,
        body := some (exc.className ++ ": " ++ exc.message), headers := [] }
  | .ok stats =>
      { status_code := 200, url := url, reason := none, body := none,
        headers := [("Content-Type", contentTypeGuess.getD "text/plain"),
                    ("Content-Length", toString stats.st_size),
                    ("Last-Modified", stats.st_mtime_formatted)] }

/-- Definition that follows the spec's words for C2's port-matching rule (to
be compared with `compare_origin_part` as the matcher applies it): ports
match when literally equal or when either side is a wildcard, an absent
candidate port being treated as a wildcard. -/
def spec_port_matches (allowed : OPart) (port : Option Nat) : Bool :=
  match port with
  | none => true
  | some p => decide (allowed = OPart.star) || decide (allowed = OPart.num p)

/-- Decidable equality of `Except` results, for evaluating the model on
concrete inputs. -/
instance {e a : Type} [DecidableEq e] [DecidableEq a] : DecidableEq (Except e a) :=
  fun x y =>
    match x, y with
    | .error u, .error v =>
        if h : u = v then isTrue (by rw [h]) else isFalse (fun c => h (Except.error.inj c))
    | .ok u, .ok v =>
        if h : u = v then isTrue (by rw [h]) else isFalse (fun c => h (Except.ok.inj c))
    | .error _, .ok _ => isFalse (fun c => Except.noConfusion c)
    | .ok _, .error _ => isFalse (fun c => Except.noConfusion c)

/-- The claim's egg-info selection rule: the egg fragment (extras stripped)
if present, else the filename with its extension removed. -/
def eggInfoOf (l : Link) : String :=
  match l.fragment_egg with
  | some s => strip_extras s
  | none => splitext_root l.filename

/-! ## Characterization lemmas for the evaluation pipeline -/

theorem pvfeGo_eq_filtered (cs : List Char) (canonical_name : String) :
    ∀ rest i, cs.drop i = rest →
      pvfeGo cs canonical_name rest i =
        (((idxList i (cs.length - i)).filter
            (fun j => isBoundary cs canonical_name j)).head?).map
          (fun j => String.mk (cs.drop (j + 1))) := by
  intro rest
  induction rest with
  | nil =>
      intro i hi
      have hge : cs.length ≤ i := List.drop_eq_nil_iff.mp hi
      have hz : cs.length - i = 0 := by omega
      rw [pvfeGo, hz]
      simp [idxList]
  | cons c rest ih =>
      intro i hi
      have hlt : i < cs.length := by
        by_contra hge
        have : cs.drop i = [] := List.drop_eq_nil_iff.mpr (by omega)
        rw [this] at hi
        exact List.noConfusion hi
      have hcons := List.drop_eq_getElem_cons hlt
      rw [hi] at hcons
      have hc : c = cs[i] := (List.cons.inj hcons).1
      have hrest : cs.drop (i + 1) = rest := ((List.cons.inj hcons).2).symm
      have hget : cs[i]? = some cs[i] := List.getElem?_eq_getElem hlt
      have hsucc : cs.length - i = (cs.length - (i + 1)) + 1 := by omega
      rw [pvfeGo, hsucc]
      by_cases hb :
          canonicalize_name (String.mk (cs.take i)) = canonical_name ∧
            (c = '-' ∨ c = '_')
      · have hboundary : isBoundary cs canonical_name i = true := by
          rcases hb.2 with hcc | hcc <;>
            simp [isBoundary, hget, hb.1, ← hc, hcc]
        simp [idxList, hboundary, hb]
      · have hboundary : isBoundary cs canonical_name i = false := by
          simp only [isBoundary, hget, ← hc]
          rcases not_and_or.mp hb with h1 | h2
          · simp [h1]
          · have hc1 : ¬ c = '-' := fun h => h2 (Or.inl h)
            have hc2 : ¬ c = '_' := fun h => h2 (Or.inr h)
            simp [hc1, hc2]
        have hrec := ih (i + 1) hrest
        simp [idxList, hboundary, hb, hrec]

/-- The source's scanning loop computes exactly the spec's shortest-boundary
rule. -/
theorem parse_version_eq_spec_rule (egg_info canonical_name : String) :
    parse_version_from_egg_info egg_info canonical_name =
      spec_version_from_egg_info egg_info canonical_name := by
  unfold parse_version_from_egg_info spec_version_from_egg_info
  have h := pvfeGo_eq_filtered egg_info.data canonical_name egg_info.data 0 rfl
  simpa using h


/-- A link that passes format control, the yank check and the python check
but resolves no version is rejected. -/
theorem evaluate_link_reject (e : Evaluator) (sys_version : List Nat) (l : Link)
    (hfc : e.format_control.is_allowed l = true)
    (hy : e.check_yanked l = true)
    (hrp : e.check_requires_python sys_version l = .ok true)
    (hrv : e.resolve_version l = none) :
    e.evaluate_link sys_version l = .ok none := by
  unfold Evaluator.evaluate_link
  rw [hfc, hy, hrp, hrv]
  simp

/-- A link that passes every check is admitted with the resolved version and
the original link embedded in the package. -/
theorem evaluate_link_admits (e : Evaluator) (sys_version : List Nat) (l : Link)
    (v : String)
    (hfc : e.format_control.is_allowed l = true)
    (hy : e.check_yanked l = true)
    (hrp : e.check_requires_python sys_version l = .ok true)
    (hrv : e.resolve_version l = some v)
    (hch : e.check_hashes l = true) :
    e.evaluate_link sys_version l = .ok (some ⟨e.package_name, some v, l⟩) := by
  unfold Evaluator.evaluate_link
  rw [hfc, hy, hrp, hrv, hch]
  simp

/-- Format-control rejection short-circuits the pipeline. -/
theorem evaluate_link_fc_reject (e : Evaluator) (sys_version : List Nat) (l : Link)
    (hfc : e.format_control.is_allowed l = false) :
    e.evaluate_link sys_version l = .ok none := by
  unfold Evaluator.evaluate_link
  rw [hfc]
  simp

/-- Yank rejection short-circuits the pipeline. -/
theorem evaluate_link_yank_reject (e : Evaluator) (sys_version : List Nat) (l : Link)
    (hy : e.check_yanked l = false) :
    e.evaluate_link sys_version l = .ok none := by
  unfold Evaluator.evaluate_link
  rw [hy]
  simp

/-- An exception in the requires-python check propagates out of
`evaluate_link`. -/
theorem evaluate_link_rp_error (e : Evaluator) (sys_version : List Nat) (l : Link)
    (m : String)
    (hfc : e.format_control.is_allowed l = true)
    (hy : e.check_yanked l = true)
    (hq : e.check_requires_python sys_version l = .error m) :
    e.evaluate_link sys_version l = .error m := by
  unfold Evaluator.evaluate_link
  rw [hfc, hy, hq]
  simp

/-- A requires-python mismatch rejects the link. -/
theorem evaluate_link_rp_reject (e : Evaluator) (sys_version : List Nat) (l : Link)
    (hfc : e.format_control.is_allowed l = true)
    (hy : e.check_yanked l = true)
    (hq : e.check_requires_python sys_version l = .ok false) :
    e.evaluate_link sys_version l = .ok none := by
  unfold Evaluator.evaluate_link
  rw [hfc, hy, hq]
  simp

/-- A hash mismatch rejects the link after version resolution. -/
theorem evaluate_link_hash_reject (e : Evaluator) (sys_version : List Nat) (l : Link)
    (v : String)
    (hfc : e.format_control.is_allowed l = true)
    (hy : e.check_yanked l = true)
    (hq : e.check_requires_python sys_version l = .ok true)
    (hv : e.resolve_version l = some v)
    (hch : e.check_hashes l = false) :
    e.evaluate_link sys_version l = .ok none := by
  unfold Evaluator.evaluate_link
  rw [hfc, hy, hq, hv, hch]
  simp

/-- Full characterization of admission: a package comes out of
`evaluate_link` exactly when every check passes, and it is then built from
the evaluator's package name, the resolved version and the original link. -/
theorem evaluate_link_admit_iff (e : Evaluator) (sys_version : List Nat) (l : Link)
    (p : Package) :
    e.evaluate_link sys_version l = .ok (some p) ↔
      e.format_control.is_allowed l = true ∧
      e.check_yanked l = true ∧
      e.check_requires_python sys_version l = .ok true ∧
      ∃ v, e.resolve_version l = some v ∧ e.check_hashes l = true ∧
        p = ⟨e.package_name, some v, l⟩ := by
  constructor
  · intro h
    cases hfc : e.format_control.is_allowed l with
    | false =>
        rw [evaluate_link_fc_reject e sys_version l hfc] at h
        exact absurd h (by simp)
    | true =>
    cases hy : e.check_yanked l with
    | false =>
        rw [evaluate_link_yank_reject e sys_version l hy] at h
        exact absurd h (by simp)
    | true =>
    cases hq : e.check_requires_python sys_version l with
    | error m =>
        rw [evaluate_link_rp_error e sys_version l m hfc hy hq] at h
        exact absurd h (by simp)
    | ok b =>
    cases b with
    | false =>
        rw [evaluate_link_rp_reject e sys_version l hfc hy hq] at h
        exact absurd h (by simp)
    | true =>
    cases hv : e.resolve_version l with
    | none =>
        rw [evaluate_link_reject e sys_version l hfc hy hq hv] at h
        exact absurd h (by simp)
    | some v =>
    cases hch : e.check_hashes l with
    | false =>
        rw [evaluate_link_hash_reject e sys_version l v hfc hy hq hv hch] at h
        exact absurd h (by simp)
    | true =>
        rw [evaluate_link_admits e sys_version l v hfc hy hq hv hch] at h
        exact ⟨rfl, rfl, rfl, v, rfl, rfl, (Option.some.inj (Except.ok.inj h)).symm⟩
  · rintro ⟨hfc, hy, hq, v, hv, hch, hp⟩
    rw [hp]
    exact evaluate_link_admits e sys_version l v hfc hy hq hv hch

/-- On wheel links with a parseable filename, `resolve_version` is the
name-match-then-tag-intersection test. -/
theorem resolve_version_wheel (e : Evaluator) (l : Link) (wi : WheelInfo)
    (hw : l.is_wheel = true)
    (hp : parse_wheel_filename l.filename = some wi) :
    e.resolve_version l =
      if e.canonical_name ≠ wi.name then none
      else if e.ignore_compatibility = false ∧
          tagsDisjoint wi.tags e.target_python.supported_tags then none
      else some wi.version := by
  unfold Evaluator.resolve_version
  rw [hw, hp]
  simp

/-- On wheel links whose filename does not parse, `resolve_version` fails. -/
theorem resolve_version_wheel_invalid (e : Evaluator) (l : Link)
    (hw : l.is_wheel = true)
    (hp : parse_wheel_filename l.filename = none) :
    e.resolve_version l = none := by
  unfold Evaluator.resolve_version
  rw [hw, hp]
  simp

/-- On non-wheel links whose egg fragment is not the empty string, the
source's egg-info selection agrees with the claim's rule and
`resolve_version` is the egg-info scan. -/
theorem resolve_version_nonwheel (e : Evaluator) (l : Link)
    (hw : l.is_wheel = false)
    (hegg : l.fragment_egg ≠ some "") :
    e.resolve_version l =
      parse_version_from_egg_info (eggInfoOf l) e.canonical_name := by
  unfold Evaluator.resolve_version eggInfoOf
  rw [hw]
  cases hfe : l.fragment_egg with
  | none => simp [strTruthy]
  | some s =>
      have hs : s ≠ "" := fun h => hegg (by rw [hfe, h])
      simp [strTruthy, hs]

/-- A wildcard host pattern matches every candidate host. -/
theorem hostMatches_star (host : Option String) :
    hostMatches OPart.star host = true := by
  unfold hostMatches
  cases host.bind ip_address <;> simp [compare_origin_part]

/-- Format control reads only the link's filename. -/
theorem is_allowed_ext (fc : FormatControl) (l1 l2 : Link)
    (h : l1.filename = l2.filename) : fc.is_allowed l1 = fc.is_allowed l2 := by
  unfold FormatControl.is_allowed Link.is_wheel
  rw [h]

/-- The requires-python check reads only the link's `requires_python`. -/
theorem check_requires_python_ext (e : Evaluator) (sys_version : List Nat)
    (l1 l2 : Link) (h : l1.requires_python = l2.requires_python) :
    e.check_requires_python sys_version l1 =
      e.check_requires_python sys_version l2 := by
  unfold Evaluator.check_requires_python
  rw [h]

/-- Version resolution reads only the filename and the egg fragment. -/
theorem resolve_version_ext (e : Evaluator) (l1 l2 : Link)
    (hf : l1.filename = l2.filename) (he : l1.fragment_egg = l2.fragment_egg) :
    e.resolve_version l1 = e.resolve_version l2 := by
  unfold Evaluator.resolve_version Link.is_wheel
  rw [hf, he]

/-- The hash check reads only the link's hash field. -/
theorem check_hashes_ext (e : Evaluator) (l1 l2 : Link)
    (h : l1.hashField = l2.hashField) :
    e.check_hashes l1 = e.check_hashes l2 := by
  unfold Evaluator.check_hashes
  rw [h]

/-- With yanked candidates allowed, the yank reason plays no further role:
evaluation of the link equals evaluation with the reason cleared, with the
original link re-embedded into any admitted package. -/
theorem evaluate_link_yank_invariant (e : Evaluator) (sys_version : List Nat)
    (l : Link) (h : e.allow_yanked = true) :
    e.evaluate_link sys_version l =
      (e.evaluate_link sys_version { l with yank_reason := none }).map
        (fun op => op.map (fun p => { p with link := l })) := by
  have hy1 : e.check_yanked l = true := by
    simp [Evaluator.check_yanked, h]
  have hy2 : e.check_yanked { l with yank_reason := none } = true := by
    simp [Evaluator.check_yanked, h]
  have hfc := is_allowed_ext e.format_control l { l with yank_reason := none } rfl
  have hq := check_requires_python_ext e sys_version l { l with yank_reason := none } rfl
  have hrv := resolve_version_ext e l { l with yank_reason := none } rfl rfl
  have hch := check_hashes_ext e l { l with yank_reason := none } rfl
  unfold Evaluator.evaluate_link
  rw [hy1, hy2, hfc, hq, hrv, hch]
  cases e.format_control.is_allowed { l with yank_reason := none } with
  | false => simp [Except.map]
  | true =>
    cases e.check_requires_python sys_version { l with yank_reason := none } with
    | error m => simp [Except.map]
    | ok b =>
      cases b with
      | false => simp [Except.map]
      | true =>
        cases e.resolve_version { l with yank_reason := none } with
        | none => simp [Except.map]
        | some v =>
          cases e.check_hashes { l with yank_reason := none } with
          | false => simp [Except.map]
          | true => simp [Except.map]

/-! ## The claims -/

/-- C2 counterexample: by the claim's port rule the absent candidate port is
a wildcard and so matches an entry carrying a specific port, but the code's
`_compare_origin_part` only honours a wildcard on the entry side: a trusted
host configured with port 8080 does not match the same host without an
explicit port, which therefore stays untrusted. -/
theorem claim_C2_counterexample :
    spec_port_matches (OPart.num 8080) none = true ∧
    compare_origin_part (OPart.num 8080) (portToOPart none) = false ∧
    PyPISession.is_secure_origin ⟨[("example.com", some 8080)]⟩
      { scheme := "http", hostname := some "example.com", port := none } =
      false := by
  exact ⟨rfl, rfl, by decide⟩

/-- C2 amended: for a table entry whose scheme and host parts match, the
whole entry matches iff its port part is the wildcard or equals the
candidate's (non-zero) port literally; an absent candidate port is encoded
as the wildcard string and therefore matches only wildcard entries — in
particular an entry with a specific port never matches a candidate without
an explicit port. -/
theorem claim_C2_port_rule (entry : OPart × OPart × OPart) (scheme : String)
    (host : Option String) (port : Option Nat)
    (hs : compare_origin_part entry.1 (.str scheme) = true)
    (hh : hostMatches entry.2.1 host = true) :
    (entryMatches entry scheme host port = true ↔
      (entry.2.2 = OPart.star ∨
        ∃ p, port = some p ∧ p ≠ 0 ∧ entry.2.2 = OPart.num p)) ∧
    (∀ p : Nat, port = none → entry.2.2 = OPart.num p →
      entryMatches entry scheme host port = false) := by
  have hem : entryMatches entry scheme host port =
      compare_origin_part entry.2.2 (portToOPart port) := by
    unfold entryMatches
    rw [hs, hh]
    simp
  constructor
  · rw [hem]
    cases port with
    | none => simp [compare_origin_part, portToOPart]
    | some p =>
        by_cases hp : p = 0
        · subst hp
          simp [compare_origin_part, portToOPart]
        · simp [compare_origin_part, portToOPart, hp]
  · intro p hpn hnum
    rw [hem, hpn, hnum]
    simp [compare_origin_part, portToOPart]

/-- C2 witness: with matching scheme and host, a specific entry port matches
the equal candidate port and fails to match an absent one. -/
theorem claim_C2_port_rule_witness :
    entryMatches (OPart.star, OPart.str "example.com", OPart.num 8080)
      "http" (some "example.com") (some 8080) = true ∧
    entryMatches (OPart.star, OPart.str "example.com", OPart.num 8080)
      "http" (some "example.com") none = false := by
  constructor
  · exact (claim_C2_port_rule _ "http" (some "example.com") (some 8080)
      (by decide) (by decide)).1.mpr (Or.inr ⟨8080, rfl, by decide, rfl⟩)
  · exact (claim_C2_port_rule _ "http" (some "example.com") none
      (by decide) (by decide)).2 8080 rfl rfl

/-- C6: any URL whose (driver-stripped) scheme is https is trusted through
the default table whatever the explicit configuration; a host inside a
configured trusted CIDR network is trusted by network membership; and a URL
matching no entry yields `false` (a logged warning in the source, not an
exception — the model is total). -/
theorem claim_C6_trust_matching :
    (∀ (s : PyPISession) (location : Link),
        stripDriver location.scheme = "https" →
        s.is_secure_origin location = true) ∧
    (∀ extra : List (String × Option Nat),
        PyPISession.is_secure_origin ⟨("10.0.0.0/8", none) :: extra⟩
          { scheme := "http", hostname := some "10.0.0.5", port := none } =
          true) ∧
    PyPISession.is_secure_origin ⟨[]⟩
      { scheme := "http", hostname := some "example.org", port := none } =
      false := by
  refine ⟨?_, ?_, by decide⟩
  · intro s loc h
    have h1 : entryMatches (OPart.str "https", OPart.star, OPart.star)
        (stripDriver loc.scheme) loc.hostname loc.port = true := by
      unfold entryMatches
      rw [h]
      simp [compare_origin_part, hostMatches_star]
    unfold PyPISession.is_secure_origin PyPISession.iter_secure_origins
      DEFAULT_SECURE_ORIGINS
    simp [h1]
  · intro extra
    have h1 : entryMatches (OPart.star, OPart.str "10.0.0.0/8", portToOPart none)
        (stripDriver "http") (some "10.0.0.5") none = true := by decide
    unfold PyPISession.is_secure_origin PyPISession.iter_secure_origins
    simp [h1]

/-- C6 witness: an https URL is trusted regardless of the configured trusted
hosts. -/
theorem claim_C6_trust_matching_witness :
    PyPISession.is_secure_origin ⟨[("other.example", some 1)]⟩
      { scheme := "https", hostname := some "93.184.216.34", port := none } =
      true :=
  claim_C6_trust_matching.1 _ _ (by decide)

/-- C1 counterexample: a link whose requires-python field is an unparseable
specifier makes `evaluate_link` raise `InvalidSpecifier` (the
`SpecifierSet(link.requires_python)` call in `_check_requires_python` is not
guarded by any try/except), instead of rejecting the link as the claim
states. -/
theorem claim_C1_counterexample :
    Evaluator.evaluate_link { package_name := "foo" } [3, 11]
      { filename := "foo-1.0.tar.gz", requires_python := some "not a specifier" } =
      .error "InvalidSpecifier" := by
  decide

/-- C1 amended: a link with an unparseable wheel filename is rejected
gracefully provided its requires-python check does not itself raise; a link
carrying an unparseable requires-python specifier (with compatibility
checking on) raises `InvalidSpecifier` out of `evaluate_link` instead of
being rejected. -/
theorem claim_C1_malformed_input :
    (∀ (e : Evaluator) (sys_version : List Nat) (l : Link),
        l.is_wheel = true →
        parse_wheel_filename l.filename = none →
        e.format_control.is_allowed l = true →
        e.check_yanked l = true →
        (∃ b, e.check_requires_python sys_version l = .ok b) →
        e.evaluate_link sys_version l = .ok none) ∧
    (∀ (e : Evaluator) (sys_version : List Nat) (l : Link),
        e.format_control.is_allowed l = true →
        e.check_yanked l = true →
        e.ignore_compatibility = false →
        strTruthy l.requires_python = true →
        parseSpecifierSet (l.requires_python.getD "") = none →
        e.evaluate_link sys_version l = .error "InvalidSpecifier") := by
  constructor
  · intro e sv l hw hp hfc hy hex
    obtain ⟨b, hb⟩ := hex
    cases b with
    | false => exact evaluate_link_rp_reject e sv l hfc hy hb
    | true =>
        exact evaluate_link_reject e sv l hfc hy hb
          (resolve_version_wheel_invalid e l hw hp)
  · intro e sv l hfc hy hic htr hps
    have herr : e.check_requires_python sv l = .error "InvalidSpecifier" := by
      unfold Evaluator.check_requires_python
      rw [hic, htr]
      simp [hps]
    exact evaluate_link_rp_error e sv l _ hfc hy herr

/-- C1 witness: the malformed wheel filename `foo.whl` is rejected
gracefully, and a malformed requires-python specifier raises. -/
theorem claim_C1_malformed_input_witness :
    Evaluator.evaluate_link { package_name := "foo" } [3, 11]
      { filename := "foo.whl" } = .ok none ∧
    Evaluator.evaluate_link { package_name := "foo" } [3, 11]
      { filename := "bar-1.0.tar.gz", requires_python := some "???" } =
      .error "InvalidSpecifier" := by
  constructor
  · exact claim_C1_malformed_input.1 _ [3, 11] _ (by decide) (by decide) (by decide)
      (by decide) ⟨true, by decide⟩
  · exact claim_C1_malformed_input.2 _ [3, 11] _ (by decide) (by decide) rfl
      (by decide) (by decide)

/-- C3 counterexample: a wheel that passes format/yank/python, whose
canonicalized name matches and whose tag set intersects the supported tags,
is still rejected when its hash mismatches the supplied allowlist — the
claim's "admits iff tag sets intersect" omits the hash check. -/
theorem claim_C3_counterexample :
    parse_wheel_filename "foo-1.0-py3-none-any.whl" =
      some ⟨"foo", "1.0", none, [⟨"py3", "none", "any"⟩]⟩ ∧
    canonicalize_name "Foo" = "foo" ∧
    tagsDisjoint [⟨"py3", "none", "any"⟩] [⟨"py3", "none", "any"⟩] = false ∧
    Evaluator.evaluate_link
      { package_name := "Foo",
        target_python := { supported_tags := [⟨"py3", "none", "any"⟩] },
        hashes := [("sha256", ["abc123"])] } [3, 11]
      { filename := "foo-1.0-py3-none-any.whl",
        hashField := some ("sha256", "def456") } = .ok none := by
  exact ⟨by decide, by decide, by decide, by decide⟩

/-- C3 amended: for a wheel passing the format/yank/python checks, a
canonicalized-name mismatch rejects regardless of tags; when the names match,
compatibility checking is enabled and the link also passes the hash check,
`evaluate_link` admits iff the wheel's tag set intersects the supported tags
(a set-intersection test). -/
theorem claim_C3_wheel_name_and_tags (e : Evaluator) (sys_version : List Nat)
    (l : Link) (wi : WheelInfo)
    (hw : l.is_wheel = true)
    (hp : parse_wheel_filename l.filename = some wi)
    (hfc : e.format_control.is_allowed l = true)
    (hy : e.check_yanked l = true)
    (hrp : e.check_requires_python sys_version l = .ok true) :
    (wi.name ≠ e.canonical_name → e.evaluate_link sys_version l = .ok none) ∧
    (wi.name = e.canonical_name → e.ignore_compatibility = false →
      e.check_hashes l = true →
      ((∃ p, e.evaluate_link sys_version l = .ok (some p)) ↔
        tagsDisjoint wi.tags e.target_python.supported_tags = false)) := by
  have hres := resolve_version_wheel e l wi hw hp
  constructor
  · intro hn
    have hrv : e.resolve_version l = none := by
      rw [hres, if_pos (fun h => hn h.symm)]
    exact evaluate_link_reject e sys_version l hfc hy hrp hrv
  · intro hn hic hch
    have hcond : ¬ (e.canonical_name ≠ wi.name) := by
      rw [hn]
      exact fun h => h rfl
    cases hd : tagsDisjoint wi.tags e.target_python.supported_tags with
    | true =>
        have hrv : e.resolve_version l = none := by
          rw [hres, if_neg hcond, if_pos ⟨hic, hd⟩]
        have hrej := evaluate_link_reject e sys_version l hfc hy hrp hrv
        constructor
        · rintro ⟨p, hp2⟩
          rw [hrej] at hp2
          exact absurd hp2 (by simp)
        · intro hfalse
          exact absurd hfalse (by simp)
    | false =>
        have hrv : e.resolve_version l = some wi.version := by
          rw [hres, if_neg hcond, if_neg (by simp [hd])]
        exact ⟨fun _ => rfl,
          fun _ => ⟨⟨e.package_name, some wi.version, l⟩,
            evaluate_link_admits e sys_version l wi.version hfc hy hrp hrv hch⟩⟩

/-- C3 witness: a name-mismatched wheel is rejected, a name-matched wheel
with intersecting tags is admitted. -/
theorem claim_C3_wheel_name_and_tags_witness :
    Evaluator.evaluate_link { package_name := "bar" } [3, 11]
      { filename := "foo-1.0-py3-none-any.whl" } = .ok none ∧
    ∃ p, Evaluator.evaluate_link
      { package_name := "Foo",
        target_python := { supported_tags := [⟨"py3", "none", "any"⟩] } } [3, 11]
      { filename := "foo-1.0-py3-none-any.whl" } = .ok (some p) := by
  constructor
  · exact (claim_C3_wheel_name_and_tags _ [3, 11] _
      ⟨"foo", "1.0", none, [⟨"py3", "none", "any"⟩]⟩
      (by decide) (by decide) (by decide) (by decide) (by decide)).1 (by decide)
  · exact ((claim_C3_wheel_name_and_tags _ [3, 11] _
      ⟨"foo", "1.0", none, [⟨"py3", "none", "any"⟩]⟩
      (by decide) (by decide) (by decide) (by decide) (by decide)).2
      (by decide) rfl (by decide)).mpr (by decide)

/-- C4: for non-wheel links the egg-info string is the egg fragment (extras
stripped) if present, else the filename with its extension removed; the
source's left-to-right scan equals the spec's shortest-prefix-plus-separator
rule; absence of a boundary rejects the link, and an admitted package carries
exactly the scanned version.  Includes the claim's two examples. -/
theorem claim_C4_egg_version_rule :
    (∀ egg_info canonical_name : String,
        parse_version_from_egg_info egg_info canonical_name =
          spec_version_from_egg_info egg_info canonical_name) ∧
    (∀ (e : Evaluator) (sys_version : List Nat) (l : Link),
        l.is_wheel = false →
        l.fragment_egg ≠ some "" →
        e.format_control.is_allowed l = true →
        e.check_yanked l = true →
        e.check_requires_python sys_version l = .ok true →
        (parse_version_from_egg_info (eggInfoOf l) e.canonical_name = none →
            e.evaluate_link sys_version l = .ok none) ∧
        (∀ v p, parse_version_from_egg_info (eggInfoOf l) e.canonical_name = some v →
            e.evaluate_link sys_version l = .ok (some p) → p.version = some v)) ∧
    parse_version_from_egg_info "foo-1.2.3" (canonicalize_name "Foo") =
      some "1.2.3" ∧
    parse_version_from_egg_info "foo" (canonicalize_name "Foo") = none := by
  refine ⟨parse_version_eq_spec_rule, ?_, by decide, by decide⟩
  intro e sv l hw hegg hfc hy hrp
  have hres := resolve_version_nonwheel e l hw hegg
  constructor
  · intro hnone
    exact evaluate_link_reject e sv l hfc hy hrp (hres.trans hnone)
  · intro v p hsome hadm
    obtain ⟨_, _, _, v2, hv2, _, hp2⟩ := (evaluate_link_admit_iff e sv l p).mp hadm
    rw [hres, hsome] at hv2
    cases Option.some.inj hv2
    rw [hp2]

/-- C4 witness: a filename without a name/version boundary is rejected, and
the claim's positive example scans correctly. -/
theorem claim_C4_egg_version_rule_witness :
    Evaluator.evaluate_link { package_name := "Foo" } [3, 11]
      { filename := "bar.tar.gz" } = .ok none ∧
    parse_version_from_egg_info "foo-1.2.3" (canonicalize_name "Foo") =
      some "1.2.3" := by
  constructor
  · exact (claim_C4_egg_version_rule.2.1 _ [3, 11] _ (by decide) (by decide)
      (by decide) (by decide) (by decide)).1 (by decide)
  · exact claim_C4_egg_version_rule.2.2.1

/-- C5: For every link that reaches the hash check: when a non-empty hash
allowlist was supplied and the link carries a hash field, the check passes
exactly when the digest appears in the allowlist under its algorithm's name
(an algorithm absent from the allowlist gives the empty list, rejecting); a
link with no hash field always passes the check regardless of the allowlist;
and every package admitted by `evaluate_link` passed the hash check. -/
theorem claim_C5_hash_allowlist (e : Evaluator) (sys_version : List Nat) (l : Link) :
    (l.hashField = none → e.check_hashes l = true) ∧
    (∀ algo digest, e.hashes ≠ [] → l.hashField = some (algo, digest) →
      (e.check_hashes l = true ↔ digest ∈ hashLookup e.hashes algo)) ∧
    (∀ p, e.evaluate_link sys_version l = .ok (some p) → e.check_hashes l = true) := by
  refine ⟨?_, ?_, ?_⟩
  · intro h
    unfold Evaluator.check_hashes
    rw [h]
    cases e.hashes <;> rfl
  · intro algo digest hne hsome
    unfold Evaluator.check_hashes
    rw [hsome]
    cases hh : e.hashes with
    | nil => exact absurd hh hne
    | cons a as => simp
  · intro p hp
    obtain ⟨_, _, _, v, _, hch, _⟩ := (evaluate_link_admit_iff e sys_version l p).mp hp
    exact hch

/-- C5 witness: the allowlist `sha256 ↦ [abc123]` admits a `sha256=abc123`
link, rejects a `sha256=def456` link, and a hash-less link passes. -/
theorem claim_C5_hash_allowlist_witness :
    Evaluator.check_hashes { package_name := "foo", hashes := [("sha256", ["abc123"])] }
      { filename := "x", hashField := some ("sha256", "abc123") } = true ∧
    Evaluator.check_hashes { package_name := "foo", hashes := [("sha256", ["abc123"])] }
      { filename := "x", hashField := some ("sha256", "def456") } = false ∧
    Evaluator.check_hashes { package_name := "foo", hashes := [("sha256", ["abc123"])] }
      { filename := "x" } = true := by
  refine ⟨?_, ?_, ?_⟩
  · exact (claim_C5_hash_allowlist _ [3, 11] _).2.1 "sha256" "abc123" (by decide) rfl
      |>.mpr (by decide)
  · have h := (claim_C5_hash_allowlist
        { package_name := "foo", hashes := [("sha256", ["abc123"])] } [3, 11]
        { filename := "x", hashField := some ("sha256", "def456") }).2.1
        "sha256" "def456" (by decide) rfl
    cases hb : Evaluator.check_hashes
        { package_name := "foo", hashes := [("sha256", ["abc123"])] }
        { filename := "x", hashField := some ("sha256", "def456") } with
    | false => rfl
    | true => exact absurd (h.mp hb) (by decide)
  · exact (claim_C5_hash_allowlist _ [3, 11] _).1 rfl

/-- C7: a link whose yank reason is present (any string, the empty one
included) is rejected when yanked candidates are not allowed; when they are,
the link is evaluated as if it were not yanked and any admitted package
carries the original link with its yank reason preserved. -/
theorem claim_C7_yank_filtering (e : Evaluator) (sys_version : List Nat) (l : Link)
    (hy : l.yank_reason ≠ none) :
    (e.allow_yanked = false → e.evaluate_link sys_version l = .ok none) ∧
    (e.allow_yanked = true →
      (∀ p, e.evaluate_link sys_version l = .ok (some p) →
        p.link = l ∧ p.link.yank_reason = l.yank_reason) ∧
      ((∃ p, e.evaluate_link sys_version l = .ok (some p)) ↔
        ∃ p, e.evaluate_link sys_version { l with yank_reason := none } =
          .ok (some p))) := by
  constructor
  · intro ha
    by_cases hfc : e.format_control.is_allowed l = false
    · exact evaluate_link_fc_reject e sys_version l hfc
    · have hcy : e.check_yanked l = false := by
        simp [Evaluator.check_yanked, hy, ha]
      exact evaluate_link_yank_reject e sys_version l hcy
  · intro ha
    constructor
    · intro p hp
      obtain ⟨_, _, _, v, _, _, hpv⟩ :=
        (evaluate_link_admit_iff e sys_version l p).mp hp
      rw [hpv]
      exact ⟨rfl, rfl⟩
    · rw [evaluate_link_yank_invariant e sys_version l ha]
      cases e.evaluate_link sys_version { l with yank_reason := none } with
      | error m => simp [Except.map]
      | ok op =>
        cases op with
        | none => simp [Except.map]
        | some q => simp [Except.map]

/-- C7 witness: a yanked sdist link is rejected by default and admitted (with
the reason preserved in the returned link) when yanked candidates are
allowed. -/
theorem claim_C7_yank_filtering_witness :
    Evaluator.evaluate_link { package_name := "foo" } [3, 11]
      { filename := "foo-1.0.tar.gz", yank_reason := some "security" } = .ok none ∧
    ∃ p, Evaluator.evaluate_link { package_name := "foo", allow_yanked := true } [3, 11]
      { filename := "foo-1.0.tar.gz", yank_reason := some "security" } =
        .ok (some p) := by
  constructor
  · exact (claim_C7_yank_filtering _ [3, 11] _ (by decide)).1 rfl
  · refine ((claim_C7_yank_filtering _ [3, 11] _ (by decide)).2 rfl).2.mpr ?_
    exact ⟨⟨"foo", some "1.0.tar",
      { filename := "foo-1.0.tar.gz", yank_reason := none }⟩, by decide⟩

/-- C8: constructing a FormatControl with both `only_binary` and `no_binary`
set always fails at construction time; construction with at most one flag
set succeeds. -/
theorem claim_C8_format_control_exclusive :
    ∀ only_binary no_binary : Bool,
      (FormatControl.make only_binary no_binary).isOk =
        !(only_binary && no_binary) := by
  decide

/-- C9: a stat failure on the local path yields a not-found-shaped response —
status 404, the error's class name as the reason and its formatted message as
the body — while a readable path yields a 200 response. -/
theorem claim_C9_localfs_error_shape :
    ∀ (url : String) (exc : OSErrorInfo) (contentTypeGuess : Option String)
      (stats : FileStats),
      (LocalFSAdapter.send url (.error exc) contentTypeGuess).status_code = 404 ∧
      (LocalFSAdapter.send url (.error exc) contentTypeGuess).reason =
        some exc.className ∧
      (LocalFSAdapter.send url (.error exc) contentTypeGuess).body =
        some (exc.className ++ ": " ++ exc.message) ∧
      (LocalFSAdapter.send url (.ok stats) contentTypeGuess).status_code = 200 := by
  intro url exc contentTypeGuess stats
  exact ⟨rfl, rfl, rfl, rfl⟩

/-- C10: a Package with no version satisfies any requirement whose name is
absent or canonically equal to its own, regardless of the requirement's
version specifier. -/
theorem claim_C10_versionless_matches (package : Package)
    (requirement : Requirement) (allow_prereleases : Option Bool)
    (hv : package.version = none)
    (hn : requirement.name = "" ∨
      canonicalize_name package.name = canonicalize_name requirement.name) :
    evaluate_package package requirement allow_prereleases = true := by
  unfold evaluate_package
  rcases hn with h | h
  · simp [h, hv, strTruthy]
  · simp [h, hv, strTruthy]

/-- C10 witness: the versionless package `Foo` satisfies the requirement
`foo==9.9`. -/
theorem claim_C10_versionless_matches_witness :
    evaluate_package ⟨"Foo", none, {}⟩
      ⟨"foo", [⟨SpecOp.eqOp, [9, 9], false, "9.9"⟩]⟩ none = true :=
  claim_C10_versionless_matches _ _ _ rfl (Or.inr (by decide))

end Unearth
